import Mathlib

/-!
Verification of the VRTD gesture-CNN training pipeline
(`src/Python_scripts/train_model.py`) against its design specification.

The script is a straight-line training program built around external
libraries (OpenCV, NumPy, scikit-learn, TensorFlow/Keras, tf2onnx).  The
shallow embedding below renders:

* the script's own pure logic (constants, `preprocess`, `load_all`, the
  fine-tune trainable-flag loop, and the sequencing of the two `fit` calls
  and the two export writes) directly from the source;
* the behaviour of the external utilities the script invokes
  (`sklearn.utils.class_weight.compute_class_weight`,
  `sklearn.model_selection.train_test_split` with stratification, the Keras
  `trainable` setter) from their documented, version-stable semantics, each
  noted in the corresponding doc comment.

Machine floats are modelled by `ℚ`: every quantity the theorems touch
(8-bit pixel values divided by 255, the class-weight ratios, the configured
learning rates) is exactly representable, and the one float-sensitive index
computation (`int(0.8 * n)`) is justified in its doc comment.
-/

namespace VRTD

/-! ### Constants (train_model.py lines 63-66) -/

def TARGET : ℕ := 216

def DATA_DIR : String := "./data"

def CLASS_NAMES : List String := ["circle", "loop", "s", "spiral", "w"]

def THRESH : ℕ := 25

/-! ### Image Loader (`preprocess`, lines 68-85) -/

/-- A decoded colour image as returned by `cv2.imread(path, cv2.IMREAD_COLOR)`:
a `height × width` grid of 3-channel pixels, each channel an 8-bit value.
Channel order is BGR, so channel 1 is green. -/
structure BGRImage where
  height : ℕ
  width : ℕ
  pixel : ℕ → ℕ → Fin 3 → ℕ
  pixel_lt : ∀ r c ch, pixel r c ch < 256

/-- The value produced by lines 82-84: `g = bgr[:,:,1]`, then
`np.stack([g,g,g],-1).astype("float32")/255.0` — a `height × width × 3`
array of scaled values. -/
structure RGBImage where
  height : ℕ
  width : ℕ
  pixel : ℕ → ℕ → Fin 3 → ℚ

/-- How NumPy renders the shape of a decoded image, or `None` for a failed
decode, inside the line-80 warning. -/
def shapeStr : Option BGRImage → String
  | none => "None"
  | some b => "(" ++ toString b.height ++ ", " ++ toString b.width ++ ", 3)"

/-- The diagnostic printed at line 80:
`f"[WARN] Skipping {path}: shape ..., expected (216,216,3)"`. -/
def warnMsg (path : String) (decoded : Option BGRImage) : String :=
  "[WARN] Skipping " ++ path ++ ": shape " ++ shapeStr decoded ++
    ", expected (" ++ toString TARGET ++ "," ++ toString TARGET ++ ",3)"

/-- Lines 82-84: replicate the green channel (BGR index 1) across all three
output channels and scale by 1/255. -/
def greenReplicated (bgr : BGRImage) : RGBImage :=
  { height := bgr.height
    width := bgr.width
    pixel := fun r c _ => (bgr.pixel r c 1 : ℚ) / 255 }

/-- Shallow embedding of `preprocess` (lines 68-85).  `imread` abstracts
`cv2.imread`, giving the decode result of each path.  The function returns
the preprocessed image — `none` being the Python `None` "no sample"
sentinel — together with the list of diagnostic lines printed. -/
def preprocess (imread : String → Option BGRImage) (path : String) :
    Option RGBImage × List String :=
  match imread path with
  | none => (none, [warnMsg path none])
  | some bgr =>
    if bgr.height ≠ TARGET ∨ bgr.width ≠ TARGET then
      (none, [warnMsg path (some bgr)])
    else
      (some (greenReplicated bgr), [])

/-! ### Dataset Assembler (`load_all`, lines 87-102) -/

/-- The glob pattern built at line 96: `os.path.join(DATA_DIR, cls, "*.png")`. -/
def classPattern (cls : String) : String := DATA_DIR ++ "/" ++ cls ++ "/*.png"

/-- The inner loop of `load_all` for one class of index `i`:
`for fp in glob(...): img = preprocess(fp); if img is not None:
X.append(img); y.append(i)`. -/
def loadClass (imread : String → Option BGRImage) (i : ℕ) :
    List String → List RGBImage × List ℕ
  | [] => ([], [])
  | fp :: rest =>
    match (preprocess imread fp).1 with
    | some img =>
      ((img :: (loadClass imread i rest).1), (i :: (loadClass imread i rest).2))
    | none => loadClass imread i rest

/-- The outer loop of `load_all`: `for i, cls in enumerate(CLASS_NAMES)`,
with `i` starting at `start`. -/
def loadFrom (glob : String → List String) (imread : String → Option BGRImage) :
    ℕ → List String → List RGBImage × List ℕ
  | _, [] => ([], [])
  | start, cls :: rest =>
    ((loadClass imread start (glob (classPattern cls))).1 ++
        (loadFrom glob imread (start + 1) rest).1,
      (loadClass imread start (glob (classPattern cls))).2 ++
        (loadFrom glob imread (start + 1) rest).2)

/-- Shallow embedding of `load_all` (lines 87-102): `glob` abstracts the
filesystem enumeration of each class directory, `imread` the decoder. -/
def load_all (glob : String → List String) (imread : String → Option BGRImage) :
    List RGBImage × List ℕ :=
  loadFrom glob imread 0 CLASS_NAMES

/-- The images of a path list that `preprocess` accepts, in discovery order. -/
def validImages (imread : String → Option BGRImage) (paths : List String) :
    List RGBImage :=
  paths.filterMap (fun fp => (preprocess imread fp).1)

/-- The number of files of a path list that `preprocess` accepts. -/
def validCount (imread : String → Option BGRImage) (paths : List String) : ℕ :=
  (validImages imread paths).length

/-! ### Basic lemmas about the loader -/

theorem loadClass_eq (imread : String → Option BGRImage) (i : ℕ)
    (paths : List String) :
    loadClass imread i paths =
      (validImages imread paths,
        List.replicate (validCount imread paths) i) := by
  induction paths with
  | nil => rfl
  | cons fp rest ih =>
    simp only [loadClass, validImages, validCount, List.filterMap_cons]
    cases h : (preprocess imread fp).1 with
    | none =>
      simpa [validImages, validCount, h] using ih
    | some img =>
      simp only [h] at ih ⊢
      rw [ih]
      simp [validImages, validCount, List.replicate_succ]

theorem loadFrom_eq (glob : String → List String)
    (imread : String → Option BGRImage) (start : ℕ) (clss : List String) :
    loadFrom glob imread start clss =
      ((clss.enumFrom start).flatMap
          (fun p => validImages imread (glob (classPattern p.2))),
        (clss.enumFrom start).flatMap
          (fun p =>
            List.replicate (validCount imread (glob (classPattern p.2))) p.1)) := by
  induction clss generalizing start with
  | nil => rfl
  | cons cls rest ih =>
    simp only [loadFrom, List.enumFrom, List.flatMap_cons, loadClass_eq, ih]

/-! ### Claim C2 — valid images -/

/-- The properties the spec demands of a successfully loaded image, relative
to its decode `bgr`: shape (216,216,3) (three channels witnessed by the
`Fin 3` channel index), all three channels copies of the green channel
scaled by 1/255, and every value in [0,1]. -/
def loaderOutputSpec (img : RGBImage) (bgr : BGRImage) : Prop :=
  img.height = 216 ∧ img.width = 216 ∧
    (∀ r c ch, img.pixel r c ch = (bgr.pixel r c 1 : ℚ) / 255) ∧
    (∀ r c ch ch', img.pixel r c ch = img.pixel r c ch') ∧
    (∀ r c ch, 0 ≤ img.pixel r c ch ∧ img.pixel r c ch ≤ 1)

/-- C2: for every file whose image decodes with height and width both 216,
`preprocess` returns the green channel replicated across three channels,
scaled by 1/255, with shape (216,216,3) and all values in [0,1]. -/
theorem c2_image_loader_valid (imread : String → Option BGRImage)
    (path : String) (bgr : BGRImage) (hdec : imread path = some bgr)
    (hh : bgr.height = 216) (hw : bgr.width = 216) :
    (preprocess imread path).1 = some (greenReplicated bgr) ∧
      loaderOutputSpec (greenReplicated bgr) bgr := by
  have hne : ¬(bgr.height ≠ TARGET ∨ bgr.width ≠ TARGET) := by
    simp [TARGET, hh, hw]
  refine ⟨by simp [preprocess, hdec, hne], hh, hw, fun r c ch => rfl,
    fun r c ch ch' => rfl, fun r c ch => ⟨?_, ?_⟩⟩
  · exact div_nonneg (Nat.cast_nonneg _) (by norm_num)
  · show (bgr.pixel r c 1 : ℚ) / 255 ≤ 1
    rw [div_le_one (by norm_num)]
    have h255 : bgr.pixel r c 1 ≤ 255 := Nat.lt_succ_iff.1 (bgr.pixel_lt r c 1)
    exact_mod_cast h255

/-- A concrete valid decode: a uniform 216 × 216 image. -/
def constImage : BGRImage :=
  { height := 216
    width := 216
    pixel := fun _ _ _ => 128
    pixel_lt := fun _ _ _ => by norm_num }

/-- Witness for C2 at a concrete decoder and path. -/
theorem c2_image_loader_valid_witness :
    (preprocess (fun _ => some constImage) "img.png").1 =
        some (greenReplicated constImage) ∧
      loaderOutputSpec (greenReplicated constImage) constImage :=
  c2_image_loader_valid (fun _ => some constImage) "img.png" constImage
    rfl rfl rfl

/-! ### Claim C6 — invalid images -/

/-- C6: for every path whose image fails to decode or whose decoded height or
width differs from 216, `preprocess` prints exactly one diagnostic line that
contains the path and renders the observed shape (or `None`), returns the
"no sample" sentinel rather than raising, and `load_all`'s per-class loop
adds nothing to the dataset for that file. -/
theorem c6_image_loader_invalid (imread : String → Option BGRImage)
    (path : String) (i : ℕ) (ps : List String)
    (hbad : imread path = none ∨
      ∃ bgr, imread path = some bgr ∧ (bgr.height ≠ 216 ∨ bgr.width ≠ 216)) :
    (preprocess imread path).1 = none ∧
      (preprocess imread path).2 = [warnMsg path (imread path)] ∧
      (∃ pre post, warnMsg path (imread path) = pre ++ path ++ post) ∧
      loadClass imread i (path :: ps) = loadClass imread i ps := by
  have hnone : (preprocess imread path).1 = none ∧
      (preprocess imread path).2 = [warnMsg path (imread path)] := by
    rcases hbad with h | ⟨bgr, hdec, hbad⟩
    · simp [preprocess, h]
    · have : bgr.height ≠ TARGET ∨ bgr.width ≠ TARGET := by
        simpa [TARGET] using hbad
      simp [preprocess, hdec, this]
  refine ⟨hnone.1, hnone.2, ⟨"[WARN] Skipping ",
    ": shape " ++ shapeStr (imread path) ++ ", expected (" ++
      toString TARGET ++ "," ++ toString TARGET ++ ",3)", ?_⟩, ?_⟩
  · simp [warnMsg, String.append_assoc]
  · simp [loadClass, hnone.1]

/-- Witness for C6 at a concrete decoder that fails on every path. -/
theorem c6_image_loader_invalid_witness :
    (preprocess (fun _ => (none : Option BGRImage)) "bad.png").1 = none ∧
      (preprocess (fun _ => (none : Option BGRImage)) "bad.png").2 =
        [warnMsg "bad.png" ((fun _ => (none : Option BGRImage)) "bad.png")] ∧
      (∃ pre post, warnMsg "bad.png" ((fun _ => (none : Option BGRImage)) "bad.png") =
        pre ++ "bad.png" ++ post) ∧
      loadClass (fun _ => (none : Option BGRImage)) 0 ["bad.png"] =
        loadClass (fun _ => (none : Option BGRImage)) 0 [] :=
  c6_image_loader_invalid (fun _ => none) "bad.png" 0 [] (Or.inl rfl)

/-! ### Claim C7 — dataset assembly -/

/-- C7: for every dataset directory (modelled by `glob` and `imread`),
`load_all` produces feature and label arrays of equal length, total count
the sum of per-class valid counts, each sample labelled with its class
name's position in the fixed list ["circle","loop","s","spiral","w"], and
samples in discovery order (classes in list order, files in glob order). -/
theorem c7_dataset_assembler (glob : String → List String)
    (imread : String → Option BGRImage) :
    (load_all glob imread).1.length = (load_all glob imread).2.length ∧
      (load_all glob imread).1.length =
        (CLASS_NAMES.enum.map
          (fun p => validCount imread (glob (classPattern p.2)))).sum ∧
      (load_all glob imread).1 =
        CLASS_NAMES.enum.flatMap
          (fun p => validImages imread (glob (classPattern p.2))) ∧
      (load_all glob imread).2 =
        CLASS_NAMES.enum.flatMap
          (fun p => List.replicate
            (validCount imread (glob (classPattern p.2))) p.1) ∧
      CLASS_NAMES = ["circle", "loop", "s", "spiral", "w"] := by
  have h := loadFrom_eq glob imread 0 CLASS_NAMES
  have hX : (load_all glob imread).1 =
      CLASS_NAMES.enum.flatMap
        (fun p => validImages imread (glob (classPattern p.2))) := by
    rw [load_all, h, List.enum]
  have hy : (load_all glob imread).2 =
      CLASS_NAMES.enum.flatMap
        (fun p => List.replicate
          (validCount imread (glob (classPattern p.2))) p.1) := by
    rw [load_all, h, List.enum]
  refine ⟨?_, ?_, hX, hy, rfl⟩
  · simp [hX, hy, List.length_flatMap, validCount, Function.comp_def]
  · simp [hX, List.length_flatMap, validCount, Function.comp_def]

/-- Witness for C7 at a concrete empty directory tree. -/
theorem c7_dataset_assembler_witness :
    (load_all (fun _ => []) (fun _ => none)).1.length =
        (load_all (fun _ => []) (fun _ => none)).2.length ∧
      (load_all (fun _ => []) (fun _ => none)).1.length =
        (CLASS_NAMES.enum.map
          (fun p => validCount (fun _ => none) ((fun _ => []) (classPattern p.2)))).sum ∧
      (load_all (fun _ => []) (fun _ => none)).1 =
        CLASS_NAMES.enum.flatMap
          (fun p => validImages (fun _ => none) ((fun _ => []) (classPattern p.2))) ∧
      (load_all (fun _ => []) (fun _ => none)).2 =
        CLASS_NAMES.enum.flatMap
          (fun p => List.replicate
            (validCount (fun _ => none) ((fun _ => []) (classPattern p.2))) p.1) ∧
      CLASS_NAMES = ["circle", "loop", "s", "spiral", "w"] :=
  c7_dataset_assembler (fun _ => []) (fun _ => none)

/-! ### Split & Balance — class weights (lines 113-114) -/

/-- The per-class "balanced" weight value sklearn computes:
`len(y) / (n_present_classes * count_c)`, where `n_present_classes` is the
number of distinct labels occurring in `y`. -/
def balancedWeight (y : List ℕ) (c : ℕ) : ℚ :=
  (y.length : ℚ) / ((y.dedup.length : ℚ) * (y.count c : ℚ))

/-- Model of `sklearn.utils.class_weight.compute_class_weight("balanced",
classes=np.arange(len(CLASS_NAMES)), y=y)` as called at line 113 — note the
call passes the FULL label array `y`, not the training split `y_tr`.
sklearn computes `len(y) / (len(le.classes_) * bincount(y))` and raises a
`ValueError` when some requested class does not occur in `y`. -/
def compute_class_weight (classes : List ℕ) (y : List ℕ) :
    Except String (List ℚ) :=
  if classes.all (fun c => decide (c ∈ y)) then
    .ok (classes.map (balancedWeight y))
  else
    .error "classes should have valid labels that are in y"

theorem dedup_length_of_range_classes (y : List ℕ) (hsub : ∀ l ∈ y, l < 5)
    (hall : ∀ c, c < 5 → c ∈ y) : y.dedup.length = 5 := by
  have h1 : y.dedup ⊆ List.range 5 := fun a ha =>
    List.mem_range.2 (hsub a (List.mem_dedup.1 ha))
  have h2 : List.range 5 ⊆ y.dedup := fun a ha =>
    List.mem_dedup.2 (hall a (List.mem_range.1 ha))
  have l1 : y.dedup.length ≤ 5 := by
    simpa using ((y.nodup_dedup).subperm h1).length_le
  have l2 : 5 ≤ y.dedup.length := by
    simpa using ((List.nodup_range 5).subperm h2).length_le
  exact le_antisymm l1 l2

/-- C1 (amended): the Class Weight Table is computed from the FULL dataset's
label distribution (train_model.py passes `y`, not `y_tr`): whenever every
class occurs in `y`, the code returns, for each class index `c`, the weight
`len(y) / (5 * count_c(y))`; every weight is strictly positive, and rarer
classes receive weights at least as large. -/
theorem c1_class_weights (y : List ℕ) (hsub : ∀ l ∈ y, l < 5)
    (hall : ∀ c, c < 5 → c ∈ y) :
    compute_class_weight (List.range 5) y =
        .ok ((List.range 5).map (balancedWeight y)) ∧
      (∀ c, c < 5 →
        balancedWeight y c = (y.length : ℚ) / (5 * (y.count c : ℚ))) ∧
      (∀ c, c < 5 → 0 < balancedWeight y c) ∧
      (∀ c₁ c₂, c₁ < 5 → c₂ < 5 → y.count c₁ ≤ y.count c₂ →
        balancedWeight y c₂ ≤ balancedWeight y c₁) := by
  have hdl : y.dedup.length = 5 := dedup_length_of_range_classes y hsub hall
  have hdlq : (y.dedup.length : ℚ) = 5 := by rw [hdl]; norm_num
  have hcond : ((List.range 5).all (fun c => decide (c ∈ y))) = true := by
    simp only [List.all_eq_true]
    intro c hc
    simpa using hall c (List.mem_range.1 hc)
  have hformula : ∀ c, c < 5 →
      balancedWeight y c = (y.length : ℚ) / (5 * (y.count c : ℚ)) := by
    intro c _
    rw [balancedWeight, hdlq]
  have hlen : (0 : ℚ) < (y.length : ℚ) := by
    have : y ≠ [] := List.ne_nil_of_mem (hall 0 (by norm_num))
    exact_mod_cast List.length_pos.2 this
  have hcount : ∀ c, c < 5 → (0 : ℚ) < (y.count c : ℚ) := by
    intro c hc
    exact_mod_cast List.count_pos_iff.2 (hall c hc)
  refine ⟨by simp [compute_class_weight, hcond], hformula, ?_, ?_⟩
  · intro c hc
    rw [hformula c hc]
    exact div_pos hlen (mul_pos (by norm_num) (hcount c hc))
  · intro c₁ c₂ h₁ h₂ hcc
    rw [hformula c₁ h₁, hformula c₂ h₂]
    have hc₁ := hcount c₁ h₁
    have hcast : (y.count c₁ : ℚ) ≤ (y.count c₂ : ℚ) := by exact_mod_cast hcc
    gcongr

/-- A 20-sample dataset with four samples of each of the five classes. -/
def y20 : List ℕ :=
  [0, 0, 0, 0, 1, 1, 1, 1, 2, 2, 2, 2, 3, 3, 3, 3, 4, 4, 4, 4]

/-- The claim's formula, in the spec's words: class weight computed from the
TRAINING split as n_train / (n_classes * train_count_c). -/
def specWeight_trainSplit (nTrain nClasses trainCount : ℕ) : ℚ :=
  (nTrain : ℚ) / ((nClasses : ℚ) * (trainCount : ℚ))

/-- Whether ANY admissible training-split count for class 0 of `y20` (the
split holds 16 of the 20 samples, and class 0 has only 4 occurrences, so its
training count is at most 4) makes the claim's training-split formula agree
with the weight the code actually computes for class 0. -/
def c1SpecMatchPossible : Prop :=
  ∃ t0 ∈ List.range 5, specWeight_trainSplit 16 5 t0 = balancedWeight y20 0

theorem balancedWeight_y20 (c : ℕ) (h : y20.count c = 4) :
    balancedWeight y20 c = 1 := by
  have h1 : y20.length = 20 := by decide
  have h2 : y20.dedup.length = 5 := by decide
  rw [balancedWeight, h1, h2, h]
  norm_num

/-- C1 counterexample: on `y20` the code assigns every class the weight 1
(computed from the full label array), while the claim's training-split
formula 16 / (5 · t₀) differs from 1 for every admissible training count t₀
of class 0 — so the claim's description of the computation is false no
matter how the split came out. -/
theorem c1_counterexample :
    compute_class_weight (List.range 5) y20 = .ok [1, 1, 1, 1, 1] ∧
      ¬c1SpecMatchPossible := by
  constructor
  · have hrange : List.range 5 = [0, 1, 2, 3, 4] := by decide
    have hcond : (([0, 1, 2, 3, 4] : List ℕ).all
        (fun c => decide (c ∈ y20))) = true := by decide
    simp only [compute_class_weight, hrange, hcond]
    rw [if_true]
    simp only [List.map_cons, List.map_nil]
    rw [balancedWeight_y20 0 (by decide), balancedWeight_y20 1 (by decide),
      balancedWeight_y20 2 (by decide), balancedWeight_y20 3 (by decide),
      balancedWeight_y20 4 (by decide)]
  · rintro ⟨t0, ht0, heq⟩
    rw [balancedWeight_y20 0 (by decide)] at heq
    have ht5 : t0 < 5 := List.mem_range.1 ht0
    interval_cases t0 <;> norm_num [specWeight_trainSplit] at heq

/-! ### Split & Balance — stratified split (lines 109-110)

The script calls `train_test_split(X, y, test_size=0.2, stratify=y,
random_state=42)`.  sklearn's `_validate_shuffle_split` computes
`n_test = ceil(0.2 * n)` and `n_train = n - n_test` (the float product
`0.2 * n` stays within 5.6e-17·n of n/5, under half an ulp, so the ceiling
is exactly ⌈n/5⌉), then `StratifiedShuffleSplit._iter_indices` rejects any
present class with fewer than 2 members and rejects train or test parts
smaller than the number of present classes.  All four error messages are
fixed texts that interpolate sizes but never a class name or index. -/

/-- `ceil(0.2 * n)` = ⌈n/5⌉: the validation-set size. -/
def n_test_of (n : ℕ) : ℕ := (n + 4) / 5

/-- `n - ceil(0.2 * n)`: the training-set size. -/
def n_train_of (n : ℕ) : ℕ := n - n_test_of n

/-- sklearn's message for a class with fewer than 2 members — a constant
string, the same whichever class is deficient. -/
def leastPopulatedMsg : String :=
  "The least populated class in y has only 1 member, which is too few. The minimum number of groups for any class cannot be less than 2."

/-- sklearn's message when the train part would be empty. -/
def emptyTrainMsg (n : ℕ) : String :=
  "With n_samples=" ++ toString n ++
    ", test_size=0.2 and train_size=None, the resulting train set will be empty. Adjust any of the aforementioned parameters."

/-- sklearn's message when the train part is smaller than the class count. -/
def trainSizeMsg (nTrain nClasses : ℕ) : String :=
  "The train_size = " ++ toString nTrain ++
    " should be greater or equal to the number of classes = " ++
    toString nClasses

/-- sklearn's message when the test part is smaller than the class count. -/
def testSizeMsg (nTest nClasses : ℕ) : String :=
  "The test_size = " ++ toString nTest ++
    " should be greater or equal to the number of classes = " ++
    toString nClasses

/-- The validation sklearn performs before producing the stratified split,
in program order: empty-train check, least-populated-class check, then the
train-size and test-size versus class-count checks. -/
def stratified_split_check (y : List ℕ) : Except String Unit :=
  if n_train_of y.length = 0 then
    .error (emptyTrainMsg y.length)
  else if y.dedup.any (fun c => decide (y.count c < 2)) then
    .error leastPopulatedMsg
  else if n_train_of y.length < y.dedup.length then
    .error (trainSizeMsg (n_train_of y.length) y.dedup.length)
  else if n_test_of y.length < y.dedup.length then
    .error (testSizeMsg (n_test_of y.length) y.dedup.length)
  else
    .ok ()

/-- Add one to each of the first `r` entries of a list. -/
def addOnes : ℕ → List ℕ → List ℕ
  | _, [] => []
  | 0, l => l
  | r + 1, f :: fs => (f + 1) :: addOnes r fs

/-- Modelled from the spec: the per-class validation allocation of the
stratified splitter.  sklearn's `_approximate_mode` gives every class either
the floor or the ceiling of its exact proportional share
`count_c * n_test / n`, the remainder classes being picked by the seeded rng
(library internals, not repository code); the model sends the remainder to
the earliest classes, which realises the spec's "per-class proportions
preserved within stratification tolerance". -/
def allocateTest (counts : List ℕ) (n nTest : ℕ) : List ℕ :=
  addOnes (nTest - (counts.map (fun c => c * nTest / n)).sum)
    (counts.map (fun c => c * nTest / n))

/-- The per-class sample counts of `y`, one entry per present class in
`y.dedup` order (NumPy's `bincount` over the encoded labels). -/
def classCounts (y : List ℕ) : List ℕ := y.dedup.map (fun c => y.count c)

/-- The validation allocation for the label list `y`, per present class in
`y.dedup` order. -/
def testAlloc (y : List ℕ) : List ℕ :=
  allocateTest (classCounts y) y.length (n_test_of y.length)

/-- The per-class (train, validation) sizes of the stratified split. -/
def splitParts (y : List ℕ) : List (ℕ × ℕ) :=
  ((classCounts y).zip (testAlloc y)).map (fun p => (p.1 - p.2, p.2))

/-- The stratified split with the fixed seed 42, at the level of per-class
(train, validation) sizes.  The split is a pure function of the label list —
the seed is a compile-time constant, not an entropy source — so repeated
runs agree by construction. -/
def stratified_split (y : List ℕ) : Except String (List (ℕ × ℕ)) :=
  match stratified_split_check y with
  | .error e => .error e
  | .ok _ => .ok (splitParts y)

/-- Lines 109-115 in program order: the stratified split (lines 109-110),
then the class weights (line 113). -/
def split_and_balance (y : List ℕ) :
    Except String (List (ℕ × ℕ) × List ℚ) :=
  match stratified_split y with
  | .error e => .error e
  | .ok parts =>
    match compute_class_weight (List.range 5) y with
    | .error e => .error e
    | .ok ws => .ok (parts, ws)

/-! ### Claim C3 — near-empty classes -/

/-- C3 (amended): a class with 0 or 1 samples makes the Split & Balance
stage fail fast — with exactly 1 sample the stratified split itself raises,
with 0 samples the split can succeed and the class-weight computation
raises — but the error does not identify the offending class. -/
theorem c3_split_balance_fails (y : List ℕ) (c : ℕ) (hc : c < 5)
    (h1 : y.count c ≤ 1) : ∃ m, split_and_balance y = .error m := by
  cases hchk : stratified_split_check y with
  | error e =>
    exact ⟨e, by simp [split_and_balance, stratified_split, hchk]⟩
  | ok u =>
    have hc0 : y.count c = 0 := by
      by_contra hne
      have hc1 : y.count c = 1 := by omega
      have hmem : c ∈ y := List.count_pos_iff.1 (by omega)
      have hmemd : c ∈ y.dedup := List.mem_dedup.2 hmem
      have hany : (y.dedup.any (fun c' => decide (y.count c' < 2))) = true :=
        List.any_eq_true.2 ⟨c, hmemd, by simp [hc1]⟩
      by_cases h0 : n_train_of y.length = 0
      · simp [stratified_split_check, h0] at hchk
      · simp [stratified_split_check, h0, hany] at hchk
    have hnm : c ∉ y := List.count_eq_zero.1 hc0
    have hcw : compute_class_weight (List.range 5) y =
        .error "classes should have valid labels that are in y" := by
      rw [compute_class_weight, if_neg]
      intro hall
      have := List.all_eq_true.1 hall c (List.mem_range.2 hc)
      simp only [decide_eq_true_eq] at this
      exact hnm this
    exact ⟨"classes should have valid labels that are in y",
      by simp [split_and_balance, stratified_split, hchk, hcw]⟩

/-- Witness for C3 (amended) at the one-sample label list `[0]`. -/
theorem c3_split_balance_fails_witness :
    ∃ m, split_and_balance [0] = .error m :=
  c3_split_balance_fails [0] 0 (by norm_num) (by decide)

/-- Nine samples where class 0 is the one with a single sample. -/
def yDeficientFirst : List ℕ := [0, 1, 1, 2, 2, 3, 3, 4, 4]

/-- Nine samples where class 4 is the one with a single sample. -/
def yDeficientLast : List ℕ := [0, 0, 1, 1, 2, 2, 3, 3, 4]

/-- Twenty samples of classes 0-3 only; class 4 has zero samples. -/
def yMissingClass : List ℕ :=
  [0, 0, 0, 0, 0, 1, 1, 1, 1, 1, 2, 2, 2, 2, 2, 3, 3, 3, 3, 3]

/-- C3 counterexample: the error is not class-identifying — a deficient
class 0 and a deficient class 4 produce byte-identical error messages, so
no reader of the error can tell which class failed; and with a 0-sample
class the stratified split itself succeeds, the stage only failing later in
the class-weight computation, again with a message that names no class. -/
theorem c3_counterexample :
    split_and_balance yDeficientFirst = .error leastPopulatedMsg ∧
      split_and_balance yDeficientLast = .error leastPopulatedMsg ∧
      yDeficientFirst.count 0 = 1 ∧ yDeficientLast.count 4 = 1 ∧
      stratified_split_check yMissingClass = .ok () ∧
      split_and_balance yMissingClass =
        .error "classes should have valid labels that are in y" :=
  ⟨rfl, rfl, rfl, rfl, rfl, rfl⟩

/-! ### Allocation lemmas for the stratified split -/

theorem addOnes_length (r : ℕ) (l : List ℕ) :
    (addOnes r l).length = l.length := by
  induction l generalizing r with
  | nil => cases r <;> rfl
  | cons f fs ih =>
    cases r with
    | zero => rfl
    | succ r' => simp [addOnes, ih r']

theorem addOnes_sum (r : ℕ) (l : List ℕ) (h : r ≤ l.length) :
    (addOnes r l).sum = l.sum + r := by
  induction l generalizing r with
  | nil =>
    simp only [List.length_nil, Nat.le_zero] at h
    simp [h, addOnes]
  | cons f fs ih =>
    cases r with
    | zero => simp [addOnes]
    | succ r' =>
      have hih := ih r' (by simpa using h)
      simp only [addOnes, List.sum_cons, hih]
      omega

theorem addOnes_getD (r : ℕ) (l : List ℕ) (i : ℕ) (h : i < l.length) :
    (addOnes r l).getD i 0 =
      if i < r then l.getD i 0 + 1 else l.getD i 0 := by
  induction l generalizing r i with
  | nil => simp at h
  | cons f fs ih =>
    cases r with
    | zero => simp [addOnes]
    | succ r' =>
      cases i with
      | zero => simp [addOnes]
      | succ i' =>
        have hih := ih r' i' (by simpa using h)
        simp only [addOnes, List.getD_cons_succ, hih]
        exact if_congr (by omega) rfl rfl

theorem floorSum_bounds (n m : ℕ) (hn : 0 < n) (counts : List ℕ) :
    (counts.map (fun c => c * m / n)).sum * n ≤ counts.sum * m ∧
      counts.sum * m ≤
        (counts.map (fun c => c * m / n)).sum * n +
          counts.length * (n - 1) := by
  induction counts with
  | nil => simp
  | cons c cs ih =>
    obtain ⟨ih1, ih2⟩ := ih
    have h1 : c * m / n * n ≤ c * m := Nat.div_mul_le_self _ _
    have h2 : c * m / n * n + c * m % n = c * m := Nat.div_add_mod' _ _
    have h3 : c * m % n ≤ n - 1 := by
      have := Nat.mod_lt (c * m) hn
      omega
    constructor
    · simp only [List.map_cons, List.sum_cons]
      rw [add_mul, add_mul]
      omega
    · simp only [List.map_cons, List.sum_cons, List.length_cons]
      rw [add_mul, add_mul, add_mul]
      omega

theorem floorSum_le (n m : ℕ) (hn : 0 < n) (counts : List ℕ)
    (hsum : counts.sum = n) :
    (counts.map (fun c => c * m / n)).sum ≤ m := by
  have h := (floorSum_bounds n m hn counts).1
  rw [hsum, mul_comm n m] at h
  exact Nat.le_of_mul_le_mul_right h hn

theorem remainder_le (n m : ℕ) (hn : 0 < n) (counts : List ℕ)
    (hsum : counts.sum = n) :
    m - (counts.map (fun c => c * m / n)).sum ≤ counts.length := by
  have h := (floorSum_bounds n m hn counts).2
  rw [hsum] at h
  by_contra hcon
  push_neg at hcon
  set S := (counts.map (fun c => c * m / n)).sum with hS
  set k := counts.length with hk
  have e1 : n * (S + k + 1) ≤ n * m := Nat.mul_le_mul_left n (by omega)
  have e2 : n * (S + k + 1) = n * S + n * k + n := by ring
  have e3 : k * (n - 1) = k * n - k := by rw [Nat.mul_sub, mul_one]
  have e4 : S * n = n * S := mul_comm _ _
  have e5 : k * n = n * k := mul_comm _ _
  omega

theorem allocateTest_length (counts : List ℕ) (n m : ℕ) :
    (allocateTest counts n m).length = counts.length := by
  simp [allocateTest, addOnes_length]

theorem allocateTest_sum (counts : List ℕ) (n m : ℕ) (hn : 0 < n)
    (hsum : counts.sum = n) : (allocateTest counts n m).sum = m := by
  have h1 := floorSum_le n m hn counts hsum
  have h2 := remainder_le n m hn counts hsum
  rw [allocateTest, addOnes_sum _ _ (by simpa using h2)]
  omega

theorem getD_map_div (n m : ℕ) (l : List ℕ) (i : ℕ) :
    (l.map (fun c => c * m / n)).getD i 0 = l.getD i 0 * m / n := by
  induction l generalizing i with
  | nil => simp
  | cons c cs ih =>
    cases i with
    | zero => simp
    | succ i' => simpa using ih i'

theorem allocateTest_getD (counts : List ℕ) (n m i : ℕ)
    (hi : i < counts.length) :
    counts.getD i 0 * m / n ≤ (allocateTest counts n m).getD i 0 ∧
      (allocateTest counts n m).getD i 0 ≤ counts.getD i 0 * m / n + 1 := by
  rw [allocateTest, addOnes_getD _ _ _ (by simpa using hi)]
  simp only [getD_map_div]
  split <;> omega

theorem allocateTest_getD_le (counts : List ℕ) (n m i : ℕ) (hn : 0 < n)
    (hmn : m < n) (hi : i < counts.length) (hci : 1 ≤ counts.getD i 0) :
    (allocateTest counts n m).getD i 0 ≤ counts.getD i 0 := by
  rw [allocateTest, addOnes_getD _ _ _ (by simpa using hi)]
  simp only [getD_map_div]
  have hlt : counts.getD i 0 * m / n < counts.getD i 0 := by
    apply (Nat.div_lt_iff_lt_mul hn).2
    exact mul_lt_mul_of_pos_left hmn (by omega)
  split <;> omega

theorem sum_zip_sub_add (cs : List ℕ) : ∀ ts : List ℕ,
    ts.length = cs.length →
    (∀ i, i < cs.length → ts.getD i 0 ≤ cs.getD i 0) →
    ((cs.zip ts).map (fun p => p.1 - p.2)).sum + ts.sum = cs.sum := by
  induction cs with
  | nil =>
    intro ts hlen _
    have hts : ts = [] := List.eq_nil_of_length_eq_zero (by simpa using hlen)
    subst hts
    simp
  | cons c cs' ih =>
    intro ts hlen hle
    cases ts with
    | nil => simp at hlen
    | cons t ts' =>
      have h0 : t ≤ c := by simpa using hle 0 (by simp)
      have htail := ih ts' (by simpa using hlen)
        (fun i hi => by simpa using hle (i + 1) (by simpa using hi))
      simp only [List.zip_cons_cons, List.map_cons, List.sum_cons]
      omega

/-! ### Claim C8 — the stratified split on well-populated datasets -/

/-- The properties claim C8 asserts of the split: it succeeds; train and
validation counts sum to the original count; the validation count is
⌈n/5⌉, within rounding of 20% of the total; every class's validation
allocation is within one sample of its exact proportional share and never
exceeds its count; and the split is deterministic (a pure function of the
labels — the seed is the compile-time constant 42). -/
def c8Conclusion (y : List ℕ) : Prop :=
  stratified_split y = .ok (splitParts y) ∧
    ((splitParts y).map Prod.fst).sum + ((splitParts y).map Prod.snd).sum =
      y.length ∧
    ((splitParts y).map Prod.snd).sum = n_test_of y.length ∧
    y.length ≤ 5 * n_test_of y.length ∧
    5 * n_test_of y.length ≤ y.length + 4 ∧
    (∀ i, i < (classCounts y).length →
      (classCounts y).getD i 0 * n_test_of y.length / y.length ≤
          (testAlloc y).getD i 0 ∧
        (testAlloc y).getD i 0 ≤
          (classCounts y).getD i 0 * n_test_of y.length / y.length + 1 ∧
        (testAlloc y).getD i 0 ≤ (classCounts y).getD i 0) ∧
    stratified_split y = stratified_split y

/-- C8 (amended): for every dataset in which every class has at least 2
samples AND both split parts are at least as large as the number of present
classes (a requirement sklearn's splitter adds, violated e.g. by 5 classes
of 2 samples each), the stratified split succeeds with the properties of
`c8Conclusion`. -/
theorem c8_stratified_split (y : List ℕ) (hne : y ≠ [])
    (h2 : ∀ c ∈ y.dedup, 2 ≤ y.count c)
    (htr : y.dedup.length ≤ n_train_of y.length)
    (hte : y.dedup.length ≤ n_test_of y.length) :
    c8Conclusion y := by
  have hn : 0 < y.length := List.length_pos.2 hne
  have hk1 : 1 ≤ y.dedup.length := by
    rcases List.exists_mem_of_ne_nil y hne with ⟨a, ha⟩
    exact List.length_pos.2 (List.ne_nil_of_mem (List.mem_dedup.2 ha))
  have hcsum : (classCounts y).sum = y.length := by
    simpa [classCounts] using List.sum_map_count_dedup_eq_length y
  have hclen : (classCounts y).length = y.dedup.length := by simp [classCounts]
  have h0 : n_train_of y.length ≠ 0 := by omega
  have hmn : n_test_of y.length < y.length := by
    have hdef : n_train_of y.length = y.length - n_test_of y.length := rfl
    omega
  have hany : (y.dedup.any (fun c => decide (y.count c < 2))) = false := by
    simp only [List.any_eq_false, decide_eq_true_eq]
    intro c hcm
    have := h2 c hcm
    omega
  have hchk : stratified_split_check y = .ok () := by
    simp [stratified_split_check, h0, hany, Nat.not_lt.2 htr, Nat.not_lt.2 hte]
  have hlen_ts : (testAlloc y).length = (classCounts y).length :=
    allocateTest_length _ _ _
  have hall2 : ∀ x ∈ classCounts y, 2 ≤ x := by
    intro x hx
    simp only [classCounts] at hx
    rcases List.mem_map.1 hx with ⟨c, hcm, hce⟩
    exact (h2 c hcm).trans_eq hce
  have hcib : ∀ i, i < (classCounts y).length →
      2 ≤ (classCounts y).getD i 0 := by
    intro i hi
    refine hall2 _ ?_
    rw [List.getD_eq_getElem _ _ hi]
    exact List.getElem_mem hi
  have hperc : ∀ i, i < (classCounts y).length →
      (classCounts y).getD i 0 * n_test_of y.length / y.length ≤
          (testAlloc y).getD i 0 ∧
        (testAlloc y).getD i 0 ≤
          (classCounts y).getD i 0 * n_test_of y.length / y.length + 1 ∧
        (testAlloc y).getD i 0 ≤ (classCounts y).getD i 0 := by
    intro i hi
    have hb := allocateTest_getD (classCounts y) y.length
      (n_test_of y.length) i hi
    have hle := allocateTest_getD_le (classCounts y) y.length
      (n_test_of y.length) i hn hmn hi (by have := hcib i hi; omega)
    exact ⟨hb.1, hb.2, hle⟩
  have hts_sum : (testAlloc y).sum = n_test_of y.length :=
    allocateTest_sum _ _ _ hn hcsum
  have hfst : (splitParts y).map Prod.fst =
      ((classCounts y).zip (testAlloc y)).map (fun p => p.1 - p.2) := by
    simp [splitParts, List.map_map, Function.comp_def]
  have hsnd : (splitParts y).map Prod.snd = testAlloc y := by
    have h1 : (splitParts y).map Prod.snd =
        ((classCounts y).zip (testAlloc y)).map Prod.snd := by
      simp [splitParts, List.map_map, Function.comp_def]
    rw [h1]
    exact List.map_snd_zip _ _ (le_of_eq hlen_ts)
  have hsum_main := sum_zip_sub_add (classCounts y) (testAlloc y) hlen_ts
    (fun i hi => (hperc i hi).2.2)
  refine ⟨by simp [stratified_split, hchk], ?_, ?_, ?_, ?_, hperc, rfl⟩
  · rw [hfst, hsnd, hts_sum] at *
    rw [hfst, hsnd]
    omega
  · rw [hsnd, hts_sum]
  · have hdef : n_test_of y.length = (y.length + 4) / 5 := rfl
    omega
  · have hdef : n_test_of y.length = (y.length + 4) / 5 := rfl
    omega

/-- Twenty-five samples, five of each class: large enough for both split
parts to hold all five classes. -/
def y25 : List ℕ :=
  [0, 0, 0, 0, 0, 1, 1, 1, 1, 1, 2, 2, 2, 2, 2, 3, 3, 3, 3, 3,
    4, 4, 4, 4, 4]

/-- Witness for C8 (amended) at the concrete dataset `y25`. -/
theorem c8_stratified_split_witness : c8Conclusion y25 :=
  c8_stratified_split y25 (by decide) (by decide) (by decide) (by decide)

/-- Ten samples, two of each class: every class has ≥ 2 samples. -/
def y10 : List ℕ := [0, 0, 1, 1, 2, 2, 3, 3, 4, 4]

/-- C8 counterexample: on `y10` every class has at least 2 samples, yet the
split FAILS — sklearn additionally requires the test part (here
⌈10/5⌉ = 2) to be at least the number of classes (5), so the claim's
hypothesis is not sufficient for a successful split. -/
theorem c8_counterexample :
    (y10.dedup.all (fun c => decide (2 ≤ y10.count c))) = true ∧
      stratified_split y10 = .error (testSizeMsg 2 5) :=
  ⟨rfl, rfl⟩

/-! ### Model Builder and fine-tuning — trainable flags (lines 126, 158-160) -/

/-- Layer-trainable flags after `base.trainable = False` (line 126): the
Keras `trainable` setter propagates the value to every nested layer, so all
`n` feature-extractor layers are frozen. -/
def frozenBase (n : ℕ) : List Bool := List.replicate n false

/-- `int(0.8 * n)` (line 159).  The double nearest 0.8 exceeds 4/5 by a
relative 5.6e-17, so the float product `0.8 * n` stays within half an ulp
of 4n/5 and rounds to it exactly when 5 ∣ n; Python's `int` truncation
therefore agrees with ⌊4n/5⌋ for any layer count, which is `4 * n / 5`
in ℕ. -/
def fineTuneStart (n : ℕ) : ℕ := 4 * n / 5

/-- The loop of lines 159-160:
`for layer in base.layers[int(0.8*n):]: layer.trainable = True` — set every
flag from position `k` on, leaving the first `k` flags unchanged. -/
def setTrailingTrainable : ℕ → List Bool → List Bool
  | _, [] => []
  | 0, _ :: fs => true :: setTrailingTrainable 0 fs
  | k + 1, f :: fs => f :: setTrailingTrainable k fs

/-- The per-layer trainable flags of the feature extractor once Phase 2
begins (line 126, then lines 158-160), for an `n`-layer base. -/
def phase2Flags (n : ℕ) : List Bool :=
  setTrailingTrainable (fineTuneStart n) (frozenBase n)

theorem setTrailingTrainable_getD (k : ℕ) (l : List Bool) (i : ℕ)
    (h : i < l.length) :
    (setTrailingTrainable k l).getD i false =
      if k ≤ i then true else l.getD i false := by
  induction l generalizing k i with
  | nil => simp at h
  | cons f fs ih =>
    cases k with
    | zero =>
      cases i with
      | zero => simp [setTrailingTrainable]
      | succ i' =>
        have hih := ih 0 i' (by simpa using h)
        simp only [setTrailingTrainable, List.getD_cons_succ, hih]
        simp only [Nat.zero_le, if_true]
    | succ k' =>
      cases i with
      | zero => simp [setTrailingTrainable]
      | succ i' =>
        have hih := ih k' i' (by simpa using h)
        simp only [setTrailingTrainable, List.getD_cons_succ, hih]
        exact if_congr (by omega) rfl rfl

theorem setTrailingTrainable_replicate (n k : ℕ) :
    setTrailingTrainable k (List.replicate n false) =
      List.replicate (min k n) false ++ List.replicate (n - k) true := by
  induction n generalizing k with
  | zero => simp [setTrailingTrainable]
  | succ n' ih =>
    cases k with
    | zero => simp [List.replicate_succ, setTrailingTrainable, ih 0]
    | succ k' =>
      simp only [List.replicate_succ, setTrailingTrainable, ih k']
      rw [Nat.succ_min_succ, List.replicate_succ, Nat.succ_sub_succ]
      simp

/-- C4: once Phase 2 begins, a feature-extractor layer's trainable flag is
true exactly when its index is at least ⌊0.8·n⌋ — the last 20% of the `n`
layers by position — earlier layers staying non-trainable, and the number
of trainable layers is exactly n − ⌊0.8·n⌋. -/
theorem c4_fine_tune_flags (n i : ℕ) (h : i < n) :
    ((phase2Flags n).getD i false = true ↔ fineTuneStart n ≤ i) ∧
      (phase2Flags n).length = n ∧
      (phase2Flags n).count true = n - fineTuneStart n := by
  refine ⟨?_, ?_, ?_⟩
  · rw [phase2Flags, setTrailingTrainable_getD _ _ _ (by simpa [frozenBase])]
    constructor
    · intro hg
      by_contra hk
      simp only [if_neg hk, frozenBase] at hg
      rw [List.getD_eq_getElem _ _ (by simpa using h)] at hg
      simp at hg
    · intro hk
      simp [if_pos hk]
  · rw [phase2Flags, frozenBase, setTrailingTrainable_replicate]
    simp only [List.length_append, List.length_replicate]
    have : fineTuneStart n ≤ n := Nat.div_le_of_le_mul (by omega)
    omega
  · rw [phase2Flags, frozenBase, setTrailingTrainable_replicate]
    rw [List.count_append]
    simp [List.count_replicate]

/-- Witness for C4 at a 10-layer base and layer index 8 = ⌊0.8·10⌋. -/
theorem c4_fine_tune_flags_witness :
    ((phase2Flags 10).getD 8 false = true ↔ fineTuneStart 10 ≤ 8) ∧
      (phase2Flags 10).length = 10 ∧
      (phase2Flags 10).count true = 10 - fineTuneStart 10 :=
  c4_fine_tune_flags 10 8 (by norm_num)

/-! ### Training Controller (lines 137-169) -/

/-- `callbacks.EarlyStopping(patience=5, restore_best_weights=True)`
(line 144); the monitored quantity defaults to the validation loss. -/
structure EarlyStoppingCfg where
  patience : ℕ
  restore_best_weights : Bool
deriving DecidableEq

/-- `callbacks.ReduceLROnPlateau(factor=0.3, patience=3, verbose=1)`
(line 145). -/
structure ReduceLROnPlateauCfg where
  factor : ℚ
  patience : ℕ
deriving DecidableEq

/-- The configuration of one `model.fit` call together with the optimizer
the model was last compiled with. -/
structure FitCall where
  learningRate : ℚ
  epochs : ℕ
  batchSize : ℕ
  classWeighted : Bool
  earlyStop : EarlyStoppingCfg
  lrDecay : ReduceLROnPlateauCfg
deriving DecidableEq

/-- The shared callback list `cbs` (lines 143-146). -/
def cbsEarlyStopping : EarlyStoppingCfg :=
  { patience := 5, restore_best_weights := true }

/-- The learning-rate schedule of `cbs` (line 145). -/
def cbsReduceLR : ReduceLROnPlateauCfg := { factor := 3 / 10, patience := 3 }

/-- Phase 1 (lines 137, 150-154): `Adam(1e-3)`, `epochs=10`, `batch_size=8`,
`class_weight=class_weights`, `callbacks=cbs`. -/
def phase1Fit : FitCall :=
  { learningRate := 1 / 1000
    epochs := 10
    batchSize := 8
    classWeighted := true
    earlyStop := cbsEarlyStopping
    lrDecay := cbsReduceLR }

/-- Phase 2 (lines 162-169): `Adam(1e-4)`, `epochs=30`, `batch_size=8`,
`class_weight=class_weights`, `callbacks=cbs`. -/
def phase2Fit : FitCall :=
  { learningRate := 1 / 10000
    epochs := 30
    batchSize := 8
    classWeighted := true
    earlyStop := cbsEarlyStopping
    lrDecay := cbsReduceLR }

/-- What a `fit` call reports back (how many passes actually ran, whether
early stopping fired).  The script never branches on it. -/
structure FitOutcome where
  epochsRan : ℕ
  earlyStopped : Bool

/-- Lines 137-169 as a trace: the script performs the Phase-1 fit, then —
straight-line code, no branch — recompiles and performs the Phase-2 fit,
whatever Phase 1's outcome was. -/
def trainingTrace (outcome : FitCall → FitOutcome) :
    List (FitCall × FitOutcome) :=
  [(phase1Fit, outcome phase1Fit), (phase2Fit, outcome phase2Fit)]

/-- The properties claim C5 asserts of the controller: for any Phase-1
outcome the trace is exactly Phase 1 followed by Phase 2 (two distinct
configurations, so Phase 2 occurs exactly once), with the configured
learning rates, pass limits, batch sizes, class weighting and callback
policies. -/
def c5Conclusion (outcome : FitCall → FitOutcome) : Prop :=
  (trainingTrace outcome).map Prod.fst = [phase1Fit, phase2Fit] ∧
    phase1Fit ≠ phase2Fit ∧
    phase1Fit.learningRate = 1 / 1000 ∧ phase1Fit.epochs = 10 ∧
    phase1Fit.batchSize = 8 ∧ phase1Fit.classWeighted = true ∧
    phase1Fit.earlyStop.patience = 5 ∧
    phase1Fit.earlyStop.restore_best_weights = true ∧
    phase1Fit.lrDecay.factor = 3 / 10 ∧ phase1Fit.lrDecay.patience = 3 ∧
    phase2Fit.learningRate = 1 / 10000 ∧ phase2Fit.epochs = 30 ∧
    phase2Fit.batchSize = 8 ∧ phase2Fit.classWeighted = true ∧
    phase2Fit.earlyStop = phase1Fit.earlyStop ∧
    phase2Fit.lrDecay = phase1Fit.lrDecay

/-- C5: the Training Controller runs Phase 1 with the configured policies
and then transitions to Phase 2 unconditionally and exactly once, for every
possible Phase-1 outcome. -/
theorem c5_training_controller (outcome : FitCall → FitOutcome) :
    c5Conclusion outcome := by
  refine ⟨rfl, ?_, rfl, rfl, rfl, rfl, rfl, rfl, rfl, rfl, rfl, rfl, rfl,
    rfl, rfl, rfl⟩
  intro hcon
  have := congrArg FitCall.epochs hcon
  simp [phase1Fit, phase2Fit] at this

/-- Witness for C5 at a concrete outcome function (every fit converging
immediately). -/
theorem c5_training_controller_witness :
    c5Conclusion (fun _ => { epochsRan := 1, earlyStopped := true }) :=
  c5_training_controller (fun _ => { epochsRan := 1, earlyStopped := true })

/-! ### Exporter (lines 172-178) -/

/-- The element type of the declared input signature. -/
inductive TensorDType where
  | float32
deriving DecidableEq

/-- Line 176: `tf.TensorSpec((None, TARGET, TARGET, 3), tf.float32,
name="input")` — `None` is the dynamic batch dimension. -/
structure TensorSig where
  batch : Option ℕ
  height : ℕ
  width : ℕ
  channels : ℕ
  dtype : TensorDType
  name : String
deriving DecidableEq

/-- The input signature the script declares for the ONNX conversion. -/
def onnxInputSig : TensorSig :=
  { batch := none
    height := TARGET
    width := TARGET
    channels := 3
    dtype := .float32
    name := "input" }

/-- One observable act of the export stage, tagged with the identity of the
model being written, so the theorems can state that both writes concern the
same trained model. -/
inductive ExportStep where
  | savedKeras (path : String) (modelId : ℕ)
  | exportedOnnx (path : String) (modelId : ℕ) (sig : TensorSig) (opset : ℕ)
deriving DecidableEq

/-- Lines 172-178: `model.save("best_cnn.keras")`, then
`tf2onnx.convert.from_keras(model, input_signature=spec,
output_path="gesture_cnn.onnx", opset=13)`.  `saveResult` and
`convertResult` stand for the outcomes of the two external writes; the
script installs no handler, so an exception in either propagates and the
conversion is never attempted after a failed save. -/
def export_stage (modelId : ℕ) (saveResult convertResult : Except String Unit) :
    Except String (List ExportStep) :=
  match saveResult with
  | .error e => .error e
  | .ok _ =>
    match convertResult with
    | .error e => .error e
    | .ok _ =>
      .ok [.savedKeras "best_cnn.keras" modelId,
        .exportedOnnx "gesture_cnn.onnx" modelId onnxInputSig 13]

/-- The properties claim C9 asserts of the export stage for a model `m` and
write outcomes `s`, `c`: the stage completes exactly when both writes
succeed, in which case the same model is written natively to
`best_cnn.keras` and converted to `gesture_cnn.onnx` at opset 13 with the
declared float input signature (dynamic batch, 216, 216, 3) named `input`;
and a failure of either write surfaces as an error. -/
def c9Conclusion (m : ℕ) (s c : Except String Unit) : Prop :=
  ((∃ steps, export_stage m s c = .ok steps) ↔
      (s = .ok () ∧ c = .ok ())) ∧
    export_stage m (.ok ()) (.ok ()) =
      .ok [.savedKeras "best_cnn.keras" m,
        .exportedOnnx "gesture_cnn.onnx" m onnxInputSig 13] ∧
    onnxInputSig.batch = none ∧ onnxInputSig.height = 216 ∧
    onnxInputSig.width = 216 ∧ onnxInputSig.channels = 3 ∧
    onnxInputSig.dtype = .float32 ∧ onnxInputSig.name = "input" ∧
    (∀ e, s = .error e → export_stage m s c = .error e) ∧
    (∀ e, s = .ok () → c = .error e → export_stage m s c = .error e)

/-- C9: the Exporter writes the trained model to `best_cnn.keras` and
converts the same model to `gesture_cnn.onnx` at opset 13 with input
signature (dynamic batch, 216, 216, 3) float32 named `input`; the stage is
complete only if both writes succeed, and a partial success surfaces as a
reported error. -/
theorem c9_exporter (m : ℕ) (s c : Except String Unit) :
    c9Conclusion m s c := by
  cases s with
  | error e =>
    cases c <;>
      simp [c9Conclusion, export_stage, onnxInputSig, TARGET]
  | ok u =>
    cases u
    cases c with
    | error e => simp [c9Conclusion, export_stage, onnxInputSig, TARGET]
    | ok u' =>
      cases u'
      simp [c9Conclusion, export_stage, onnxInputSig, TARGET]

/-- Witness for C9 at a concrete model id and successful writes. -/
theorem c9_exporter_witness : c9Conclusion 0 (.ok ()) (.ok ()) :=
  c9_exporter 0 (.ok ()) (.ok ())

/-- Witness for C1 (amended) at the concrete dataset `y20`. -/
theorem c1_class_weights_witness :
    compute_class_weight (List.range 5) y20 =
        .ok ((List.range 5).map (balancedWeight y20)) ∧
      (∀ c, c < 5 →
        balancedWeight y20 c = (y20.length : ℚ) / (5 * (y20.count c : ℚ))) ∧
      (∀ c, c < 5 → 0 < balancedWeight y20 c) ∧
      (∀ c₁ c₂, c₁ < 5 → c₂ < 5 → y20.count c₁ ≤ y20.count c₂ →
        balancedWeight y20 c₂ ≤ balancedWeight y20 c₁) :=
  c1_class_weights y20 (by decide) (by decide)
